import Mathlib

/-!
Verification of the HookSwap token/AMM system (SOL-TOKEN-2022-TOKEN-LAYER).

The repository ships the client scripts and integration tests of the system;
the on-chain programs themselves (hookswap-amm, hook-registry, kyc-hook,
whitelist-hook) are referenced by the scripts and described in detail by the
specification, but their Rust sources are not part of the repository.  The
definitions below therefore fall into two groups:

* definitions whose doc comment starts with `Modelled from the spec:` embed
  the missing program logic, faithful to the specification's words
  (registry service, validation pipeline, AMM pool engine);
* definitions whose doc comment names a file under `src/` embed behaviour
  that is visible in the repository's own code (the `createPool` client
  surface in `src/tests/working-integration.ts`, and the control flow of
  `src/scripts/initialize_devnet_system.js`).
-/

namespace HookSwap

/-- Principals, mints, hook programs and subjects are all identified by a
deterministic key; we model identities as natural numbers. -/
abbrev Identity := Nat

/-- Modelled from the spec: the closed error taxonomy of section 7.  Every
failure of a public operation surfaces exactly one of these kinds; there is
no generic failure constructor. -/
inductive ErrorKind where
  | unauthorized
  | alreadyInit
  | registryFull
  | duplicateHook
  | unknownHook
  | hookNotApproved
  | kycNotVerified
  | notWhitelisted
  | ratioMismatch
  | slippageExceeded
  | insufficientLiquidity
  | poolAlreadyExists
  | invalidFeeRate
  | arithmeticOverflow
deriving DecidableEq, Repr

/-- Modelled from the spec: the binary verdict of the validation pipeline. -/
inductive Verdict where
  | allow
  | reject (kind : ErrorKind)
deriving DecidableEq, Repr

/-- Modelled from the spec: hook kinds KYC | Whitelist | Custom. -/
inductive HookType where
  | kyc
  | whitelist
  | custom
deriving DecidableEq, Repr

/-- Modelled from the spec: risk levels Low | Medium | High. -/
inductive RiskLevel where
  | low
  | medium
  | high
deriving DecidableEq, Repr

/-- Modelled from the spec: transfer direction used by compliance checks. -/
inductive Direction where
  | deposit
  | withdraw
deriving DecidableEq, Repr

/-- Modelled from the spec: an `ApprovedHook` registry entry (section 3). -/
structure ApprovedHook where
  hook_identity : Identity
  hook_type : HookType
  name : String
  description : String
  risk_level : RiskLevel
  enabled : Bool
  validation_count : Nat
deriving DecidableEq, Repr

/-- Modelled from the spec: `RegistryConfig` together with its bounded list
of approved hooks (sections 3 and 6; soft-deleted entries stay in place). -/
structure RegistryConfig where
  authority : Identity
  max_hooks : Nat
  is_enabled : Bool
  approved_hooks : List ApprovedHook
deriving DecidableEq, Repr

/-- Identities currently stored in the registry (approved or soft-deleted). -/
def hookIds (r : RegistryConfig) : List Identity :=
  r.approved_hooks.map (fun e => e.hook_identity)

/-- Modelled from the spec: `hook_identity already present (including
soft-deleted)`. -/
def hasHook (r : RegistryConfig) (h : Identity) : Bool :=
  decide (h ∈ hookIds r)

/-- Modelled from the spec: `initialize(authority, max_hooks)` of the hook
registry service; fails with `AlreadyInitialized` when the registry record
already exists (source name: `initialize_registry`). -/
def init_registry (authority : Identity) (max_hooks : Nat)
    (st : Option RegistryConfig) : Except ErrorKind RegistryConfig :=
  match st with
  | some _ => .error .alreadyInit
  | none =>
    .ok { authority := authority, max_hooks := max_hooks,
          is_enabled := true, approved_hooks := [] }

/-- Modelled from the spec: `approve_hook` — `Unauthorized` when the caller
is not the authority, `RegistryFull` at capacity, `DuplicateHook` when the
identity is already present (soft-deleted included), otherwise appends an
entry with `enabled = true` and `validation_count = 0`. -/
def approve_hook (caller : Identity) (h : Identity) (ty : HookType)
    (nm ds : String) (rk : RiskLevel) (r : RegistryConfig) :
    Except ErrorKind RegistryConfig :=
  if caller ≠ r.authority then .error .unauthorized
  else if r.max_hooks ≤ r.approved_hooks.length then .error .registryFull
  else if hasHook r h then .error .duplicateHook
  else .ok { r with approved_hooks :=
    r.approved_hooks ++
      [{ hook_identity := h, hook_type := ty, name := nm, description := ds,
         risk_level := rk, enabled := true, validation_count := 0 }] }

/-- Modelled from the spec: a sequence of `approve_hook` calls, one per
identity in the list, stopping at the first error.  The metadata is fixed:
capacity and duplicate behaviour depend only on the identities. -/
def approve_list (caller : Identity) (r : RegistryConfig)
    (hs : List Identity) : Except ErrorKind RegistryConfig :=
  match hs with
  | [] => .ok r
  | h :: t =>
    match approve_hook caller h .kyc "hook" "hook" .low r with
    | .error e => .error e
    | .ok r' => approve_list caller r' t

/-- Modelled from the spec: `revoke_hook` — soft delete: sets
`enabled = false` on the matching entry, never removes it. -/
def revoke_hook (caller : Identity) (h : Identity) (r : RegistryConfig) :
    Except ErrorKind RegistryConfig :=
  if caller ≠ r.authority then .error .unauthorized
  else if ¬ hasHook r h then .error .unknownHook
  else .ok { r with approved_hooks :=
    r.approved_hooks.map (fun e =>
      if e.hook_identity = h then { e with enabled := false } else e) }

/-- The registry state produced by a successful `approve_hook`: the new
entry appended at the end, enabled, with a zero validation count. -/
def appendHook (r : RegistryConfig) (h : Identity) (ty : HookType)
    (nm ds : String) (rk : RiskLevel) : RegistryConfig :=
  { r with approved_hooks := r.approved_hooks ++
    [{ hook_identity := h, hook_type := ty, name := nm, description := ds,
       risk_level := rk, enabled := true, validation_count := 0 }] }

/-- The registry state produced by a successful `revoke_hook`: the matching
entry is kept in place with `enabled := false`. -/
def softDelete (r : RegistryConfig) (h : Identity) : RegistryConfig :=
  { r with approved_hooks := r.approved_hooks.map (fun e =>
    if e.hook_identity = h then { e with enabled := false } else e) }

/-- A freshly initialized registry: the given authority and capacity, no
hooks. -/
def freshRegistry (auth : Identity) (m : Nat) : RegistryConfig :=
  { authority := auth, max_hooks := m, is_enabled := true,
    approved_hooks := [] }

/-- Modelled from the spec: `is_approved(hook_identity)` is true iff an
entry exists and is `enabled`; a pure read. -/
def is_approved (h : Identity) (r : RegistryConfig) : Bool :=
  decide (∃ e ∈ r.approved_hooks, e.hook_identity = h ∧ e.enabled = true)

/-- Modelled from the spec: `record_validation` increments the consulted
hook's `validation_count`; best-effort, never fails the caller. -/
def record_validation (h : Identity) (r : RegistryConfig) : RegistryConfig :=
  { r with approved_hooks :=
    r.approved_hooks.map (fun e =>
      if e.hook_identity = h then
        { e with validation_count := e.validation_count + 1 }
      else e) }

/-- Modelled from the spec: a `ComplianceRecord` of an external compliance
store — subject, status flag (verified / whitelisted), permission level and
update stamp. -/
structure ComplianceRecord where
  subject_identity : Identity
  status : Bool
  level : Nat
  updated_at : Nat
deriving DecidableEq, Repr

/-- Look a subject up in a compliance store. -/
def findRecord (store : List ComplianceRecord) (subject : Identity) :
    Option ComplianceRecord :=
  store.find? (fun r => r.subject_identity == subject)

/-- Modelled from the spec: the external collaborators the pipeline consults:
the KYC store, the whitelist store (with the per-direction required level),
and custom validators (hook identity, subject, direction; `none` models a
validator that errors or times out). -/
structure ComplianceEnv where
  kycStore : List ComplianceRecord
  wlStore : List ComplianceRecord
  requiredLevel : Direction → Nat
  custom : Identity → Identity → Direction → Option Verdict

/-- Modelled from the spec: dispatch to the compliance store matching the
hook type (pipeline step 3).  KYC: allow iff a record exists with
`status = verified`; Whitelist: allow iff the subject is present with a
sufficient level for the direction; Custom: the validator's verdict is
passed through unchanged, and a validator that errors is treated as a
reject (default-deny, mapped to a domain-specific kind). -/
def dispatch (env : ComplianceEnv) (ty : HookType) (h : Identity)
    (subject : Identity) (dir : Direction) : Verdict :=
  match ty with
  | .kyc =>
    match findRecord env.kycStore subject with
    | some r => if r.status then .allow else .reject .kycNotVerified
    | none => .reject .kycNotVerified
  | .whitelist =>
    match findRecord env.wlStore subject with
    | some r =>
      if r.status && decide (env.requiredLevel dir ≤ r.level) then .allow
      else .reject .notWhitelisted
    | none => .reject .notWhitelisted
  | .custom =>
    match env.custom h subject dir with
    | some v => v
    | none => .reject .hookNotApproved

/-- Modelled from the spec: a mint's external metadata — its identity and
its configured transfer-hook identity, when one is configured. -/
structure Mint where
  id : Identity
  hookConfig : Option Identity
deriving DecidableEq, Repr

/-- The hook type recorded in the registry for a hook identity. -/
def hookTypeOf (r : RegistryConfig) (h : Identity) : Option HookType :=
  (r.approved_hooks.find? (fun e => e.hook_identity == h)).map
    (fun e => e.hook_type)

/-- Modelled from the spec: the transfer-hook validation pipeline
(section 4.3).  Step 1: a mint with no hook configuration passes through
with Allow.  Step 2: an unapproved hook rejects with `HookNotApproved`
unconditionally, before any compliance store is consulted.  Step 3:
dispatch on the hook type.  Step 4: record the consultation (best-effort
audit increment).  The pair returned is the verdict together with the
registry state carrying the audit increment. -/
def pipeline (reg : RegistryConfig) (env : ComplianceEnv) (m : Mint)
    (subject : Identity) (dir : Direction) : Verdict × RegistryConfig :=
  match m.hookConfig with
  | none => (.allow, reg)
  | some h =>
    if is_approved h reg then
      match hookTypeOf reg h with
      | some ty => (dispatch env ty h subject dir, record_validation h reg)
      | none => (.reject .hookNotApproved, reg)
    else (.reject .hookNotApproved, reg)

/-- Modelled from the spec: global `PoolConfig` (authority, fee in basis
points, kill switch). -/
structure PoolConfig where
  authority : Identity
  fee_rate_bps : Nat
  is_enabled : Bool
deriving DecidableEq, Repr

/-- Modelled from the spec: a `Pool` record — canonically ordered mints,
creator, the two reserves, the derived `hook_enabled` flag and the
monotonic `lifecycle_seq` version. -/
structure Pool where
  mint_a : Mint
  mint_b : Mint
  creator : Identity
  reserve_a : Nat
  reserve_b : Nat
  hook_enabled : Bool
  lifecycle_seq : Nat
deriving DecidableEq, Repr

/-- One past the largest u64: reserve updates are overflow-checked against
this bound (spec: all arithmetic uses overflow-checked operations). -/
def U64LIMIT : Nat := 18446744073709551616

/-- Modelled from the spec: `initialize_amm(fee_rate_bps)` —
`InvalidFeeRate` when the fee exceeds 10000 bps (source name:
`initialize_amm`); creating the config twice fails like every record
creation on an already-populated address. -/
def init_amm (caller : Identity) (fee : Nat) (st : Option PoolConfig) :
    Except ErrorKind PoolConfig :=
  if 10000 < fee then .error .invalidFeeRate
  else match st with
  | some _ => .error .alreadyInit
  | none => .ok { authority := caller, fee_rate_bps := fee, is_enabled := true }

/-- Modelled from the spec: canonical ordering of a mint pair by the total
order on mint identities, so that `(A,B)` and `(B,A)` requests resolve to
the same pool. -/
def canonicalPair (mA mB : Mint) : Mint × Mint :=
  if mA.id ≤ mB.id then (mA, mB) else (mB, mA)

/-- The derived pool key of an unordered mint pair. -/
def poolKey (mA mB : Mint) : Identity × Identity :=
  ((canonicalPair mA mB).1.id, (canonicalPair mA mB).2.id)

/-- Modelled from the spec: the empty pool created by `create_pool`:
zero reserves, `hook_enabled` derived as true iff either mint carries a
transfer-hook extension. -/
def mkPool (caller : Identity) (mA mB : Mint) : Pool :=
  { mint_a := (canonicalPair mA mB).1,
    mint_b := (canonicalPair mA mB).2,
    creator := caller,
    reserve_a := 0,
    reserve_b := 0,
    hook_enabled :=
      ((canonicalPair mA mB).1.hookConfig.isSome ||
        (canonicalPair mA mB).2.hookConfig.isSome),
    lifecycle_seq := 0 }

/-- Find a pool by its derived key. -/
def lookupPool (pools : List ((Identity × Identity) × Pool))
    (k : Identity × Identity) : Option Pool :=
  (pools.find? (fun kv => decide (kv.1 = k))).map (fun kv => kv.2)

/-- Replace the pool stored under a key. -/
def setPool (pools : List ((Identity × Identity) × Pool))
    (k : Identity × Identity) (p : Pool) :
    List ((Identity × Identity) × Pool) :=
  pools.map (fun kv => if kv.1 = k then (k, p) else kv)

/-- Modelled from the spec: `create_pool` canonicalizes the mint ordering,
fails `PoolAlreadyExists` when the derived address already holds data, and
creates an empty pool; the initial price seeds no reserves (the first
`add_liquidity` does), so it does not show up in the created record. -/
def create_pool (caller : Identity) (mA mB : Mint) (_initialPrice : Nat)
    (pools : List ((Identity × Identity) × Pool)) :
    Except ErrorKind (List ((Identity × Identity) × Pool)) :=
  if (lookupPool pools (poolKey mA mB)).isSome then .error .poolAlreadyExists
  else .ok ((poolKey mA mB, mkPool caller mA mB) :: pools)

/-- Modelled from the spec: the ratio precondition of `add_liquidity`: when
the reserves are both zero the call sets the initial ratio with no check;
otherwise the deposited amounts must match the pool ratio within a
floor-based one-unit tolerance. -/
def ratio_ok (p : Pool) (amountA amountB : Nat) : Bool :=
  (decide (p.reserve_a = 0) && decide (p.reserve_b = 0)) ||
    (decide (amountB ≤ amountA * p.reserve_b / p.reserve_a + 1) &&
      decide (amountA * p.reserve_b / p.reserve_a ≤ amountB + 1))

/-- Modelled from the spec: invoke the pipeline once per mint of the pool
(an ungated mint passes through with Allow); any reject aborts. -/
def validate_mints (reg : RegistryConfig) (env : ComplianceEnv) (p : Pool)
    (subject : Identity) (dir : Direction) : Verdict × RegistryConfig :=
  match pipeline reg env p.mint_a subject dir with
  | (.reject k, reg1) => (.reject k, reg1)
  | (.allow, reg1) => pipeline reg1 env p.mint_b subject dir

/-- Modelled from the spec: `add_liquidity` — ratio check (unless seeding),
overflow checks, hook validation of the depositor in direction `deposit`
for hook-enabled pools, then the atomic reserve increments and the
`lifecycle_seq` bump. -/
def add_liquidity (reg : RegistryConfig) (env : ComplianceEnv)
    (caller : Identity) (p : Pool) (amountA amountB : Nat) :
    Except ErrorKind (Pool × RegistryConfig) :=
  if ¬ ratio_ok p amountA amountB then .error .ratioMismatch
  else if U64LIMIT ≤ p.reserve_a + amountA ∨ U64LIMIT ≤ p.reserve_b + amountB
    then .error .arithmeticOverflow
  else if p.hook_enabled then
    match validate_mints reg env p caller .deposit with
    | (.reject k, _) => .error k
    | (.allow, reg') =>
      .ok ({ p with
              reserve_a := p.reserve_a + amountA,
              reserve_b := p.reserve_b + amountB,
              lifecycle_seq := p.lifecycle_seq + 1 }, reg')
  else
    .ok ({ p with
            reserve_a := p.reserve_a + amountA,
            reserve_b := p.reserve_b + amountB,
            lifecycle_seq := p.lifecycle_seq + 1 }, reg)

/-- Modelled from the spec: the fee-discounted input of a swap,
`effective_in = amount_in * (10000 - fee_rate_bps) / 10000` with integer
floor division. -/
def effective_in (fee amountIn : Nat) : Nat :=
  amountIn * (10000 - fee) / 10000

/-- Modelled from the spec: the constant-product output
`amount_out = reserve_out * effective_in / (reserve_in + effective_in)`
with integer floor division. -/
def amount_out_calc (rin rout eff : Nat) : Nat :=
  rout * eff / (rin + eff)

/-- The input-side reserve of a swap in the requested direction. -/
def swapReserveIn (p : Pool) (aToB : Bool) : Nat :=
  if aToB then p.reserve_a else p.reserve_b

/-- The output-side reserve of a swap in the requested direction. -/
def swapReserveOut (p : Pool) (aToB : Bool) : Nat :=
  if aToB then p.reserve_b else p.reserve_a

/-- The amount a swap pays out, from the pool, the input amount and the
direction. -/
def swapAmountOut (fee : Nat) (p : Pool) (amountIn : Nat) (aToB : Bool) : Nat :=
  amount_out_calc (swapReserveIn p aToB) (swapReserveOut p aToB)
    (effective_in fee amountIn)

/-- The pool after a committed swap: input reserve grows by the full
`amount_in`, output reserve shrinks by `amount_out`, `lifecycle_seq` bumps. -/
def swapCommitPool (p : Pool) (amountIn aout : Nat) (aToB : Bool) : Pool :=
  { p with
    reserve_a := (if aToB then p.reserve_a + amountIn else p.reserve_a - aout),
    reserve_b := (if aToB then p.reserve_b - aout else p.reserve_b + amountIn),
    lifecycle_seq := p.lifecycle_seq + 1 }

/-- The result of a successful swap: the committed pool, the paid-out
amount, and the registry state carrying the audit increment. -/
structure SwapOutcome where
  pool : Pool
  amountOut : Nat
  registry : RegistryConfig
deriving DecidableEq, Repr

/-- Modelled from the spec: `swap` (section 4.2).  A zero reserve rejects
with `InsufficientLiquidity` (the `Created` state of the pool state
machine); the fee-discounted constant-product output below
`minimum_amount_out` rejects with `SlippageExceeded`; reserve arithmetic is
overflow-checked; for a hook-enabled pool the pipeline is invoked for the
outgoing mint with the caller's identity in direction `withdraw`, and any
reject aborts the whole swap with zero reserve mutation. -/
def swap (cfg : PoolConfig) (reg : RegistryConfig) (env : ComplianceEnv)
    (caller : Identity) (p : Pool) (amountIn minimumAmountOut : Nat)
    (aToB : Bool) : Except ErrorKind SwapOutcome :=
  if swapReserveIn p aToB = 0 ∨ swapReserveOut p aToB = 0 then
    .error .insufficientLiquidity
  else if swapAmountOut cfg.fee_rate_bps p amountIn aToB < minimumAmountOut
    then .error .slippageExceeded
  else if U64LIMIT ≤ swapReserveIn p aToB + amountIn then
    .error .arithmeticOverflow
  else if p.hook_enabled then
    match pipeline reg env (if aToB then p.mint_b else p.mint_a) caller
        .withdraw with
    | (.reject k, _) => .error k
    | (.allow, reg') =>
      .ok { pool := swapCommitPool p amountIn
              (swapAmountOut cfg.fee_rate_bps p amountIn aToB) aToB,
            amountOut := swapAmountOut cfg.fee_rate_bps p amountIn aToB,
            registry := reg' }
  else
    .ok { pool := swapCommitPool p amountIn
            (swapAmountOut cfg.fee_rate_bps p amountIn aToB) aToB,
          amountOut := swapAmountOut cfg.fee_rate_bps p amountIn aToB,
          registry := reg }

/-- Whether an operation result is a success. -/
def exOk {α : Type} (x : Except ErrorKind α) : Bool :=
  match x with
  | .ok _ => true
  | .error _ => false

/-- Modelled from the spec: the durable state of the whole system — the
registry record, the AMM config record and the pool records, each located
by its derived address. -/
structure SystemState where
  registry : Option RegistryConfig
  ammConfig : Option PoolConfig
  pools : List ((Identity × Identity) × Pool)
deriving DecidableEq, Repr

/-- A public operation of the system together with its arguments. -/
inductive Op where
  | opInitRegistry (caller authority : Identity) (maxHooks : Nat)
  | opApproveHook (caller h : Identity) (ty : HookType) (nm ds : String)
      (rk : RiskLevel)
  | opRevokeHook (caller h : Identity)
  | opInitAmm (caller : Identity) (fee : Nat)
  | opCreatePool (caller : Identity) (mA mB : Mint) (price : Nat)
  | opAddLiquidity (caller : Identity) (k : Identity × Identity)
      (amountA amountB : Nat)
  | opSwap (caller : Identity) (k : Identity × Identity)
      (amountIn minOut : Nat) (aToB : Bool)

/-- Modelled from the spec: run one public operation against the durable
state.  `none` stands for the hosting runtime failing to resolve an
addressed record before the program logic runs (out of the core's scope);
`some` carries the program's own success or specific error. -/
def apply_op (env : ComplianceEnv) (op : Op) (s : SystemState) :
    Option (Except ErrorKind SystemState) :=
  match op with
  | .opInitRegistry _ auth m =>
    some ((init_registry auth m s.registry).map
      (fun r => { s with registry := some r }))
  | .opApproveHook caller h ty nm ds rk =>
    match s.registry with
    | none => none
    | some r =>
      some ((approve_hook caller h ty nm ds rk r).map
        (fun r' => { s with registry := some r' }))
  | .opRevokeHook caller h =>
    match s.registry with
    | none => none
    | some r =>
      some ((revoke_hook caller h r).map
        (fun r' => { s with registry := some r' }))
  | .opInitAmm caller fee =>
    some ((init_amm caller fee s.ammConfig).map
      (fun c => { s with ammConfig := some c }))
  | .opCreatePool caller mA mB price =>
    some ((create_pool caller mA mB price s.pools).map
      (fun ps => { s with pools := ps }))
  | .opAddLiquidity caller k aA aB =>
    match s.registry, lookupPool s.pools k with
    | some r, some p =>
      some ((add_liquidity r env caller p aA aB).map
        (fun pr => { s with
                      pools := setPool s.pools k pr.1,
                      registry := some pr.2 }))
    | _, _ => none
  | .opSwap caller k aIn mOut dir =>
    match s.ammConfig, s.registry, lookupPool s.pools k with
    | some cfg, some r, some p =>
      some ((swap cfg r env caller p aIn mOut dir).map
        (fun o => { s with
                     pools := setPool s.pools k o.pool,
                     registry := some o.registry }))
    | _, _, _ => none

/-- Modelled from the spec: the all-or-nothing commit discipline of the
hosting runtime (section 5): a successful operation commits its whole new
state; a failed one commits nothing and surfaces its specific error kind. -/
def step (env : ComplianceEnv) (op : Op) (s : SystemState) :
    SystemState × Option ErrorKind :=
  match apply_op env op s with
  | some (Except.ok s') => (s', none)
  | some (Except.error e) => (s, some e)
  | none => (s, none)

/-- From src/tests/working-integration.ts (lines 284-287): the client derives
the pool address with `findProgramAddressSync(["pool", tokenA, tokenB],
ammProgramId)` — the seeds use the two mints in the order they are supplied,
with no canonical reordering.  Per the spec's addressing scheme (section 6)
a derived address is a pure function of the namespace string and the key
fields, so we model the address as that seed tuple. -/
def derivePoolAddress (ammProgramId tokenA tokenB : Identity) :
    String × Identity × Identity × Identity :=
  ("pool", ammProgramId, tokenA, tokenB)

/-- From src/tests/working-integration.ts (lines 256-279): the `createPool`
IDL declares the caller-supplied arguments `initialPrice : u64` and
`hookValidationRequired : bool`. -/
structure CreatePoolArgs where
  initialPrice : Nat
  hookValidationRequired : Bool
deriving DecidableEq, Repr

/-- A `createPool` call as the client builds it: the derived pool address
plus the caller-supplied argument tuple. -/
structure CreatePoolCall where
  poolAddress : String × Identity × Identity × Identity
  args : CreatePoolArgs
deriving DecidableEq, Repr

/-- From src/tests/working-integration.ts (lines 294-308): how the client
assembles a `createPool` call — the pool account is the address derived from
the supplied mint order, and `hookValidationRequired` is passed through from
the caller (the test passes the literal `true`). -/
def mkCreatePoolCall (ammProgramId tokenA tokenB : Identity) (price : Nat)
    (hookReq : Bool) : CreatePoolCall :=
  { poolAddress := derivePoolAddress ammProgramId tokenA tokenB,
    args := { initialPrice := price, hookValidationRequired := hookReq } }

/-- Errors a run of the devnet script can end with. -/
inductive ScriptError where
  | referenceError (ident : String)
  | rpcFailure (msg : String)
deriving DecidableEq, Repr

/-- The RPC calls the six numbered steps of
src/scripts/initialize_devnet_system.js would perform. -/
inductive RpcStep where
  | registryInit
  | kycInit
  | whitelistInit
  | ammInit
  | addHookKyc
  | addHookWhitelist
  | createToken
deriving DecidableEq, Repr

/-- The JavaScript expressions the model needs: an identifier reference, a
constructor call (`Keypair.generate()`), and short-circuit `lhs or-else
rhs`. -/
inductive JsExpr where
  | ident (nm : String)
  | callGen
  | orElse (a b : JsExpr)

/-- Evaluate a modelled JavaScript expression under a lexical scope: an
identifier that is not bound anywhere throws a `ReferenceError` carrying its
name, even as the left operand of a logical-or; a constructor call
succeeds. -/
def evalJsExpr (scope : List String) : JsExpr → Except ScriptError Bool
  | .ident nm => if nm ∈ scope then .ok true else .error (.referenceError nm)
  | .callGen => .ok true
  | .orElse a b =>
    match evalJsExpr scope a with
    | .error e => .error e
    | .ok true => .ok true
    | .ok false => evalJsExpr scope b

/-- From src/scripts/initialize_devnet_system.js: the constants bound before
line 69 executes — `require` (line 8) and, inside the function, `connection`,
`wallet`, `provider`, `PROGRAM_IDS` and the five program handles
(lines 22-63).  The PDAs (lines 72-90) are bound only after line 69, and no
binding anywhere in the file declares `walletpayer`. -/
def scopeAtLine69 : List String :=
  ["require", "connection", "wallet", "provider", "PROGRAM_IDS",
   "tokenProgram", "kycProgram", "whitelistProgram", "registryProgram",
   "ammProgram"]

/-- The outcome of one run of the script: which RPC calls were issued, and
the error (if any) that reached the final `.catch(console.error)` on
line 258. -/
structure ScriptRun where
  rpcCalls : List RpcStep
  finalCatch : Option ScriptError
deriving DecidableEq, Repr

/-- From src/scripts/initialize_devnet_system.js (lines 100-254): the six
numbered steps inside the outer try block.  Steps 1-4 and 6 each sit in
their own try/catch that swallows the error, so all of them are attempted;
in step 5 the two `addApprovedHook` calls share one try/catch, so the
whitelist registration is attempted only when the KYC registration
succeeded.  `ext` says which RPC calls succeed. -/
def runTrySteps (ext : RpcStep → Bool) : List RpcStep :=
  [RpcStep.registryInit, RpcStep.kycInit, RpcStep.whitelistInit,
    RpcStep.ammInit] ++
    (if ext RpcStep.addHookKyc then [RpcStep.addHookKyc, RpcStep.addHookWhitelist]
     else [RpcStep.addHookKyc]) ++
    [RpcStep.createToken]

/-- From src/scripts/initialize_devnet_system.js: the control flow of
`initializeDevnetSystem` around line 69.  After the preamble bindings, line
69 evaluates `walletpayer || Keypair.generate()` in a scope that does not
bind `walletpayer`; an error thrown there is outside the try block of lines
100-254, so it rejects the async function's promise and is caught only by
the final `.catch(console.error)` on line 258, before any of the six steps
runs. -/
def runDevnetSystemScript (ext : RpcStep → Bool) : ScriptRun :=
  match evalJsExpr scopeAtLine69 (JsExpr.orElse (JsExpr.ident "walletpayer")
      JsExpr.callGen) with
  | .error e => { rpcCalls := [], finalCatch := some e }
  | .ok _ => { rpcCalls := runTrySteps ext, finalCatch := none }

/-- Concrete compliance environment with empty stores (no compliance
records, no custom validators responding). -/
def env0 : ComplianceEnv :=
  { kycStore := [], wlStore := [],
    requiredLevel := fun _ => 0, custom := fun _ _ _ => none }

/-- Concrete registry fixture: freshly created by authority 1 with room for
10 hooks, nothing approved yet. -/
def reg0 : RegistryConfig :=
  { authority := 1, max_hooks := 10, is_enabled := true, approved_hooks := [] }

/-- Concrete AMM config fixture with the fee the devnet script passes to the
AMM: 30 bps (src/scripts/initialize_devnet_system.js line 153). -/
def cfg30 : PoolConfig :=
  { authority := 1, fee_rate_bps := 30, is_enabled := true }

/-- A hook-gated mint whose configured hook identity 99 is not approved in
`reg0`. -/
def mintGated : Mint := { id := 5, hookConfig := some 99 }

/-- A plain mint with no transfer hook configured. -/
def mintPlain : Mint := { id := 6, hookConfig := none }

/-- The spec's concrete scenario pool: reserves 1,000,000 / 1,000,000, no
hook gating. -/
def poolBig : Pool :=
  { mint_a := { id := 2, hookConfig := none },
    mint_b := { id := 3, hookConfig := none },
    creator := 1, reserve_a := 1000000, reserve_b := 1000000,
    hook_enabled := false, lifecycle_seq := 0 }

/-- A hook-enabled pool whose outgoing mint (for an A-to-B swap) is the
unapproved-hook mint `mintGated`. -/
def poolGated : Pool :=
  { mint_a := { id := 2, hookConfig := none },
    mint_b := mintGated,
    creator := 1, reserve_a := 10, reserve_b := 10,
    hook_enabled := true, lifecycle_seq := 0 }

/-- A tiny ungated pool with one unit on each side, for the zero-amount
round trip. -/
def poolTiny : Pool :=
  { mint_a := { id := 2, hookConfig := none },
    mint_b := { id := 3, hookConfig := none },
    creator := 1, reserve_a := 1, reserve_b := 1,
    hook_enabled := false, lifecycle_seq := 0 }

/-- `poolBig` after the spec's concrete swap of 1000 A-to-B: reserves
(1,001,000, 999,004), sequence bumped. -/
def poolBigAfter : Pool :=
  { poolBig with
     reserve_a := 1001000, reserve_b := 999004, lifecycle_seq := 1 }

/-- `poolBigAfter` after swapping the received 996 B back to A: B-side
returns to 1,000,000, A-side pays out 993. -/
def poolBigBack : Pool :=
  { poolBigAfter with
     reserve_a := 1000007, reserve_b := 1000000, lifecycle_seq := 2 }

/-- A concrete system fixture holding `reg0`, `cfg30` and `poolBig` under
key (2, 3). -/
def sys0 : SystemState :=
  { registry := some reg0, ammConfig := some cfg30,
    pools := [((2, 3), poolBig)] }

/-! Arithmetic facts about the fee-discounted constant-product formula. -/

/-- The fee-discounted input never exceeds the raw input. -/
theorem effective_in_le (fee a : Nat) : effective_in fee a ≤ a := by
  unfold effective_in
  calc a * (10000 - fee) / 10000 ≤ a * 10000 / 10000 :=
        Nat.div_le_div_right (Nat.mul_le_mul_left a (by omega))
    _ = a := Nat.mul_div_cancel a (by norm_num)

/-- With a positive fee and a positive input, the fee-discounted input is
strictly smaller than the raw input. -/
theorem effective_in_lt (fee a : Nat) (hf : 0 < fee) (ha : 0 < a) :
    effective_in fee a < a := by
  unfold effective_in
  have h1 : a * (10000 - fee) < a * 10000 :=
    mul_lt_mul_of_pos_left (by omega) ha
  exact (Nat.div_lt_iff_lt_mul (by norm_num)).2 h1

/-- The constant-product output never exceeds the output reserve. -/
theorem amount_out_le (rin rout eff : Nat) (hrin : 0 < rin) :
    amount_out_calc rin rout eff ≤ rout := by
  unfold amount_out_calc
  calc rout * eff / (rin + eff) ≤ rout * (rin + eff) / (rin + eff) :=
        Nat.div_le_div_right (Nat.mul_le_mul_left rout (Nat.le_add_left eff rin))
    _ = rout := Nat.mul_div_cancel rout (by omega)

/-- With positive reserves the constant-product output is strictly below
the output reserve. -/
theorem amount_out_lt (rin rout eff : Nat) (hrin : 0 < rin)
    (hrout : 0 < rout) : amount_out_calc rin rout eff < rout := by
  unfold amount_out_calc
  have h1 : rout * eff < rout * rin + rout * eff :=
    Nat.lt_add_of_pos_left (Nat.mul_pos hrout hrin)
  have h2 : rout * (rin + eff) = rout * rin + rout * eff := by ring
  exact (Nat.div_lt_iff_lt_mul (by omega)).2 (h2 ▸ h1)

/-- Core constant-product step: trading `eff` into the pool and paying out
the floor-divided output cannot shrink the product of the reserves. -/
theorem amm_product_base (rin rout eff : Nat) (hrin : 0 < rin) :
    rin * rout ≤ (rin + eff) * (rout - amount_out_calc rin rout eff) := by
  generalize haout : amount_out_calc rin rout eff = aout
  have h2 : aout ≤ rout := haout ▸ amount_out_le rin rout eff hrin
  have h1 : aout * (rin + eff) ≤ rout * eff := by
    rw [← haout]; unfold amount_out_calc; exact Nat.div_mul_le_self _ _
  obtain ⟨r0, rfl⟩ : ∃ r0, rout = r0 + aout :=
    ⟨rout - aout, (Nat.sub_add_cancel h2).symm⟩
  rw [Nat.add_sub_cancel]
  nlinarith [h1]

/-- The swap adds the full `amount_in` to the input reserve but computes
the output from the fee-discounted `eff ≤ amount_in`, so the reserve
product cannot decrease. -/
theorem amm_product_mono (rin rout ain eff : Nat) (hrin : 0 < rin)
    (heff : eff ≤ ain) :
    rin * rout ≤ (rin + ain) * (rout - amount_out_calc rin rout eff) :=
  le_trans (amm_product_base rin rout eff hrin)
    (Nat.mul_le_mul_right _ (by omega))

/-- With `eff` strictly below `amount_in` (a positive fee on a positive
input) the reserve product strictly grows. -/
theorem amm_product_strict (rin rout ain eff : Nat) (hrin : 0 < rin)
    (hrout : 0 < rout) (heff : eff < ain) :
    rin * rout + 1 ≤ (rin + ain) * (rout - amount_out_calc rin rout eff) := by
  have hbase := amm_product_base rin rout eff hrin
  have hlt : amount_out_calc rin rout eff < rout :=
    amount_out_lt rin rout eff hrin hrout
  have hgap : 1 ≤ (ain - eff) * (rout - amount_out_calc rin rout eff) :=
    Nat.one_le_iff_ne_zero.2 (Nat.mul_ne_zero (by omega) (by omega))
  have hsplit : (rin + ain) * (rout - amount_out_calc rin rout eff) =
      (rin + eff) * (rout - amount_out_calc rin rout eff) +
        (ain - eff) * (rout - amount_out_calc rin rout eff) := by
    rw [← Nat.add_mul]; congr 1; omega
  calc rin * rout + 1 ≤
        (rin + eff) * (rout - amount_out_calc rin rout eff) +
          (ain - eff) * (rout - amount_out_calc rin rout eff) :=
        Nat.add_le_add hbase hgap
    _ = (rin + ain) * (rout - amount_out_calc rin rout eff) := hsplit.symm

/-- Inversion of a successful swap: both reserves were positive and the
outcome is the committed pool together with the formula's output amount. -/
theorem swap_ok_inv {cfg : PoolConfig} {reg : RegistryConfig}
    {env : ComplianceEnv} {caller : Identity} {p : Pool}
    {amountIn minOut : Nat} {aToB : Bool} {o : SwapOutcome}
    (hok : swap cfg reg env caller p amountIn minOut aToB = .ok o) :
    0 < swapReserveIn p aToB ∧ 0 < swapReserveOut p aToB ∧
      o.amountOut = swapAmountOut cfg.fee_rate_bps p amountIn aToB ∧
      o.pool = swapCommitPool p amountIn
        (swapAmountOut cfg.fee_rate_bps p amountIn aToB) aToB := by
  unfold swap at hok
  by_cases h1 : swapReserveIn p aToB = 0 ∨ swapReserveOut p aToB = 0
  · rw [if_pos h1] at hok; exact Except.noConfusion hok
  · rw [if_neg h1] at hok
    push_neg at h1
    by_cases h2 : swapAmountOut cfg.fee_rate_bps p amountIn aToB < minOut
    · rw [if_pos h2] at hok; exact Except.noConfusion hok
    · rw [if_neg h2] at hok
      by_cases h3 : U64LIMIT ≤ swapReserveIn p aToB + amountIn
      · rw [if_pos h3] at hok; exact Except.noConfusion hok
      · rw [if_neg h3] at hok
        by_cases h4 : p.hook_enabled
        · rw [if_pos h4] at hok
          rcases hp : pipeline reg env (if aToB then p.mint_b else p.mint_a)
              caller Direction.withdraw with ⟨v, reg2⟩
          rw [hp] at hok
          cases v with
          | reject k => exact Except.noConfusion hok
          | allow =>
            injection hok with h5
            subst h5
            exact ⟨by omega, by omega, rfl, rfl⟩
        · rw [if_neg h4] at hok
          injection hok with h5
          subst h5
          exact ⟨by omega, by omega, rfl, rfl⟩

/-- C4: the spec's concrete swap scenario — fee 30 bps, reserves
1,000,000 / 1,000,000, `swap(amount_in = 1000, minimum_amount_out = 900,
a_to_b = true)`: the effective input is 997, the output is 996, the swap
succeeds and the new reserves are (1,001,000, 999,004). -/
theorem swap_concrete_success :
    effective_in 30 1000 = 997 ∧
    amount_out_calc 1000000 1000000 997 = 996 ∧
    swap cfg30 reg0 env0 7 poolBig 1000 900 true =
      .ok { pool := poolBigAfter, amountOut := 996, registry := reg0 } :=
  ⟨rfl, rfl, rfl⟩

/-- C10: every run of src/scripts/initialize_devnet_system.js evaluates the
unbound identifier `walletpayer` on line 69, throws the resulting
ReferenceError before the try block containing the six initialization
steps, performs no RPC call at all, and the error lands in the final
`.catch(console.error)` — whatever the devnet RPC endpoints would have
answered. -/
theorem devnet_script_reference_error (ext : RpcStep → Bool) :
    "walletpayer" ∉ scopeAtLine69 ∧
      runDevnetSystemScript ext =
        { rpcCalls := [],
          finalCatch := some (ScriptError.referenceError "walletpayer") } :=
  ⟨by decide, rfl⟩

/-- C2: all-or-nothing completion — whenever a public operation surfaces an
error, the durable state after the call is exactly the pre-call state; the
surfaced error is a value of the closed `ErrorKind` taxonomy (which has no
generic-failure constructor), so the specific kind always reaches the
caller. -/
theorem failed_op_rolls_back (env : ComplianceEnv) (op : Op)
    (s : SystemState) (e : ErrorKind)
    (h : (step env op s).2 = some e) : (step env op s).1 = s := by
  unfold step at h ⊢
  cases happ : apply_op env op s with
  | none => simp [happ] at h
  | some r =>
    cases r with
    | ok s' => simp [happ] at h
    | error e' => simp [happ]

/-- Witness for C2: the AMM initialization with fee 20000 bps fails with
the specific kind `InvalidFeeRate`, and the durable state is unchanged. -/
theorem failed_op_rolls_back_witness :
    (step env0 (Op.opInitAmm 1 20000) sys0).2 =
        some ErrorKind.invalidFeeRate ∧
      (step env0 (Op.opInitAmm 1 20000) sys0).1 = sys0 :=
  ⟨rfl, failed_op_rolls_back env0 (Op.opInitAmm 1 20000) sys0
    ErrorKind.invalidFeeRate rfl⟩

/-- C1: when a mint's configured hook identity is not approved in the
registry, the pipeline verdict is `Reject(HookNotApproved)` for every
compliance environment, subject and direction; consequently no swap whose
outgoing mint is such a mint (on a hook-enabled pool) can ever succeed. -/
theorem unapproved_hook_rejects (reg : RegistryConfig) (m : Mint)
    (hid : Identity) (hm : m.hookConfig = some hid)
    (hna : is_approved hid reg = false) :
    (∀ (env : ComplianceEnv) (subject : Identity) (dir : Direction),
      (pipeline reg env m subject dir).1 =
        Verdict.reject ErrorKind.hookNotApproved) ∧
    (∀ (env : ComplianceEnv) (cfg : PoolConfig) (caller : Identity)
        (p : Pool) (amountIn minOut : Nat) (aToB : Bool),
      p.hook_enabled = true →
      (if aToB then p.mint_b else p.mint_a) = m →
      exOk (swap cfg reg env caller p amountIn minOut aToB) = false) := by
  have hpipe : ∀ (env : ComplianceEnv) (subject : Identity) (dir : Direction),
      (pipeline reg env m subject dir).1 =
        Verdict.reject ErrorKind.hookNotApproved := by
    intro env subject dir
    unfold pipeline
    rw [hm]
    simp [hna]
  refine ⟨hpipe, ?_⟩
  intro env cfg caller p amountIn minOut aToB hook hout
  unfold swap
  by_cases h1 : swapReserveIn p aToB = 0 ∨ swapReserveOut p aToB = 0
  · rw [if_pos h1]; rfl
  · rw [if_neg h1]
    by_cases h2 : swapAmountOut cfg.fee_rate_bps p amountIn aToB < minOut
    · rw [if_pos h2]; rfl
    · rw [if_neg h2]
      by_cases h3 : U64LIMIT ≤ swapReserveIn p aToB + amountIn
      · rw [if_pos h3]; rfl
      · rw [if_neg h3, if_pos hook, hout]
        rcases hp : pipeline reg env m caller Direction.withdraw with ⟨v, reg2⟩
        have hv : v = Verdict.reject ErrorKind.hookNotApproved := by
          have := hpipe env caller Direction.withdraw
          rw [hp] at this
          exact this
        subst hv
        rfl

/-- Witness for C1: in the fresh registry `reg0` the hook identity 99 of
`mintGated` is unapproved, so the pipeline rejects with `HookNotApproved`
and a swap on the hook-enabled `poolGated` cannot succeed. -/
theorem unapproved_hook_rejects_witness :
    (pipeline reg0 env0 mintGated 3 Direction.withdraw).1 =
        Verdict.reject ErrorKind.hookNotApproved ∧
      exOk (swap cfg30 reg0 env0 3 poolGated 5 0 true) = false :=
  ⟨(unapproved_hook_rejects reg0 mintGated 99 rfl rfl).1 env0 3
      Direction.withdraw,
    (unapproved_hook_rejects reg0 mintGated 99 rfl rfl).2 env0 cfg30 3
      poolGated 5 0 true rfl rfl⟩

/-- C7: default-deny on a missing compliance record — a subject with no
record in the KYC store is rejected by the KYC validator with
`KycNotVerified`, a subject with no record in the whitelist store is
rejected by the whitelist validator with `NotWhitelisted`, and for a mint
gated by an approved KYC or whitelist hook the pipeline never returns
Allow for such a subject. -/
theorem default_deny_missing_record (env : ComplianceEnv)
    (subject : Identity)
    (hk : ∀ r ∈ env.kycStore, r.subject_identity ≠ subject)
    (hw : ∀ r ∈ env.wlStore, r.subject_identity ≠ subject) :
    (∀ (h : Identity) (dir : Direction),
      dispatch env HookType.kyc h subject dir =
        Verdict.reject ErrorKind.kycNotVerified) ∧
    (∀ (h : Identity) (dir : Direction),
      dispatch env HookType.whitelist h subject dir =
        Verdict.reject ErrorKind.notWhitelisted) ∧
    (∀ (reg : RegistryConfig) (m : Mint) (h : Identity) (ty : HookType)
        (dir : Direction),
      m.hookConfig = some h → hookTypeOf reg h = some ty →
      (ty = HookType.kyc ∨ ty = HookType.whitelist) →
      (pipeline reg env m subject dir).1 ≠ Verdict.allow) := by
  have hkf : findRecord env.kycStore subject = none := by
    unfold findRecord
    rw [List.find?_eq_none]
    intro r hr
    simpa using hk r hr
  have hwf : findRecord env.wlStore subject = none := by
    unfold findRecord
    rw [List.find?_eq_none]
    intro r hr
    simpa using hw r hr
  have hdk : ∀ (h : Identity) (dir : Direction),
      dispatch env HookType.kyc h subject dir =
        Verdict.reject ErrorKind.kycNotVerified := by
    intro h dir; unfold dispatch; rw [hkf]
  have hdw : ∀ (h : Identity) (dir : Direction),
      dispatch env HookType.whitelist h subject dir =
        Verdict.reject ErrorKind.notWhitelisted := by
    intro h dir; unfold dispatch; rw [hwf]
  refine ⟨hdk, hdw, ?_⟩
  intro reg m h ty dir hm hty htyk
  unfold pipeline
  rw [hm]
  by_cases happ : is_approved h reg = true
  · rcases htyk with hk' | hw'
    · subst hk'
      simp [happ, hty, hdk h dir]
    · subst hw'
      simp [happ, hty, hdw h dir]
  · simp [happ]

/-- Witness for C7: the empty stores of `env0` hold no record for
subject 3, so both validators reject it. -/
theorem default_deny_missing_record_witness :
    dispatch env0 HookType.kyc 99 3 Direction.withdraw =
        Verdict.reject ErrorKind.kycNotVerified ∧
      dispatch env0 HookType.whitelist 99 3 Direction.deposit =
        Verdict.reject ErrorKind.notWhitelisted :=
  ⟨(default_deny_missing_record env0 3 (by simp [env0]) (by simp [env0])).1 99
      Direction.withdraw,
    (default_deny_missing_record env0 3 (by simp [env0]) (by simp [env0])).2.1
      99 Direction.deposit⟩

/-- C5: a swap that computes an output below `minimum_amount_out` (on a
pool whose reserves are both positive, so the computation is reached)
fails with the specific kind `SlippageExceeded`, and at the system level
the failed call leaves the durable state — reserves included — unchanged. -/
theorem swap_slippage_rejects (cfg : PoolConfig) (reg : RegistryConfig)
    (env : ComplianceEnv) (caller : Identity) (p : Pool)
    (amountIn minOut : Nat) (aToB : Bool)
    (ha : 0 < p.reserve_a) (hb : 0 < p.reserve_b)
    (hs : swapAmountOut cfg.fee_rate_bps p amountIn aToB < minOut) :
    swap cfg reg env caller p amountIn minOut aToB =
        .error ErrorKind.slippageExceeded ∧
      (∀ (s : SystemState) (k : Identity × Identity),
        s.ammConfig = some cfg → s.registry = some reg →
        lookupPool s.pools k = some p →
        step env (Op.opSwap caller k amountIn minOut aToB) s =
          (s, some ErrorKind.slippageExceeded)) := by
  have hres : ¬ (swapReserveIn p aToB = 0 ∨ swapReserveOut p aToB = 0) := by
    unfold swapReserveIn swapReserveOut
    cases aToB <;> simp <;> omega
  have hswap : swap cfg reg env caller p amountIn minOut aToB =
      .error ErrorKind.slippageExceeded := by
    unfold swap
    rw [if_neg hres, if_pos hs]
  refine ⟨hswap, ?_⟩
  intro s k hcfg hreg hpool
  unfold step apply_op
  simp [hcfg, hreg, hpool, hswap, Except.map]

/-- Witness for C5: the spec's concrete scenario — fee 30 bps, reserves
1,000,000 / 1,000,000, `minimum_amount_out = 1000` — computes 996 < 1000,
rejects with `SlippageExceeded` and leaves the system state `sys0`
unchanged. -/
theorem swap_slippage_rejects_witness :
    swapAmountOut 30 poolBig 1000 true < 1000 ∧
      step env0 (Op.opSwap 7 (2, 3) 1000 1000 true) sys0 =
        (sys0, some ErrorKind.slippageExceeded) :=
  ⟨by decide,
    (swap_slippage_rejects cfg30 reg0 env0 7 poolBig 1000 1000 true
      (by decide) (by decide) (by decide)).2 sys0 (2, 3) rfl rfl rfl⟩

/-- C3: any successfully completed swap on a pool with positive reserves
leaves the product of the reserves no smaller than before — the
fee-discounted constant-product update with floor division captures the
fee inside the pool. -/
theorem swap_product_nondecreasing (cfg : PoolConfig) (reg : RegistryConfig)
    (env : ComplianceEnv) (caller : Identity) (p : Pool)
    (amountIn minOut : Nat) (aToB : Bool) (o : SwapOutcome)
    (ha : 0 < p.reserve_a) (hb : 0 < p.reserve_b)
    (hok : swap cfg reg env caller p amountIn minOut aToB = .ok o) :
    p.reserve_a * p.reserve_b ≤ o.pool.reserve_a * o.pool.reserve_b := by
  obtain ⟨hr1, hr2, hao, hpool⟩ := swap_ok_inv hok
  rw [hpool]
  cases aToB with
  | true =>
    show p.reserve_a * p.reserve_b ≤
      (p.reserve_a + amountIn) *
        (p.reserve_b - amount_out_calc p.reserve_a p.reserve_b
          (effective_in cfg.fee_rate_bps amountIn))
    exact amm_product_mono _ _ _ _ ha (effective_in_le _ _)
  | false =>
    show p.reserve_a * p.reserve_b ≤
      (p.reserve_a - amount_out_calc p.reserve_b p.reserve_a
          (effective_in cfg.fee_rate_bps amountIn)) *
        (p.reserve_b + amountIn)
    calc p.reserve_a * p.reserve_b = p.reserve_b * p.reserve_a :=
          Nat.mul_comm _ _
      _ ≤ (p.reserve_b + amountIn) *
            (p.reserve_a - amount_out_calc p.reserve_b p.reserve_a
              (effective_in cfg.fee_rate_bps amountIn)) :=
          amm_product_mono _ _ _ _ hb (effective_in_le _ _)
      _ = (p.reserve_a - amount_out_calc p.reserve_b p.reserve_a
            (effective_in cfg.fee_rate_bps amountIn)) *
            (p.reserve_b + amountIn) := Nat.mul_comm _ _

/-- Witness for C3: the concrete 1000-unit swap on the 1,000,000/1,000,000
pool grows the reserve product. -/
theorem swap_product_nondecreasing_witness :
    0 < poolBig.reserve_a ∧ 0 < poolBig.reserve_b ∧
      swap cfg30 reg0 env0 7 poolBig 1000 900 true =
        .ok { pool := poolBigAfter, amountOut := 996, registry := reg0 } ∧
      poolBig.reserve_a * poolBig.reserve_b ≤
        poolBigAfter.reserve_a * poolBigAfter.reserve_b :=
  ⟨by decide, by decide, rfl,
    swap_product_nondecreasing cfg30 reg0 env0 7 poolBig 1000 900 true
      { pool := poolBigAfter, amountOut := 996, registry := reg0 }
      (by decide) (by decide) rfl⟩

/-- C9 counterexample: the client of src/tests/working-integration.ts
derives the pool address from the mint pair in the order supplied — for the
distinct mints 0 and 1 the `(A,B)` and `(B,A)` requests resolve to
different derived pool addresses, so `create_pool` requests are not
canonicalized on the repository's call surface. -/
theorem create_pool_order_counterexample :
    (mkCreatePoolCall 15 0 1 1000000000 true).poolAddress ≠
      (mkCreatePoolCall 15 1 0 1000000000 true).poolAddress := by
  decide

/-- C9 (amended): on the repository's `createPool` surface the derived pool
address depends on the order in which the two mints are supplied (swapping
distinct mints yields a different address), and the created pool's hook
flag is the caller-supplied `hookValidationRequired` argument, not a value
computed from the mints' transfer-hook metadata. -/
theorem create_pool_client_surface (pid tokenA tokenB : Identity)
    (price : Nat) (hookReq : Bool) (hne : tokenA ≠ tokenB) :
    (mkCreatePoolCall pid tokenA tokenB price hookReq).poolAddress ≠
        (mkCreatePoolCall pid tokenB tokenA price hookReq).poolAddress ∧
      (mkCreatePoolCall pid tokenA tokenB price
        hookReq).args.hookValidationRequired = hookReq := by
  constructor
  · intro hcontra
    apply hne
    have hproj := congrArg (fun a => a.2.2.1) hcontra
    simpa [mkCreatePoolCall, derivePoolAddress] using hproj
  · rfl

/-- Witness for C9 (amended): concrete distinct mints 0 and 1. -/
theorem create_pool_client_surface_witness :
    (0 : Identity) ≠ 1 ∧
      ((mkCreatePoolCall 15 0 1 5 true).poolAddress ≠
          (mkCreatePoolCall 15 1 0 5 true).poolAddress ∧
        (mkCreatePoolCall 15 0 1 5 true).args.hookValidationRequired =
          true) :=
  ⟨by decide, create_pool_client_surface 15 0 1 5 true (by decide)⟩

/-- C8 (amended): swapping `X` of A for B and then swapping the whole
received amount of B back for A yields at most `X` of A, and strictly less
than `X` whenever the fee is positive and `X` is positive. -/
theorem round_trip_loss (cfg : PoolConfig) (reg reg2 : RegistryConfig)
    (env : ComplianceEnv) (caller : Identity) (p : Pool)
    (amountX m1 m2 : Nat) (o1 o2 : SwapOutcome)
    (h1 : swap cfg reg env caller p amountX m1 true = .ok o1)
    (h2 : swap cfg reg2 env caller o1.pool o1.amountOut m2 false = .ok o2) :
    o2.amountOut ≤ amountX ∧
      (0 < cfg.fee_rate_bps → 0 < amountX → o2.amountOut < amountX) := by
  obtain ⟨hA', hB', hY, hp1⟩ := swap_ok_inv h1
  obtain ⟨hin2', hout2', hZ, hp2⟩ := swap_ok_inv h2
  have hA : 0 < p.reserve_a := hA'
  have hB : 0 < p.reserve_b := hB'
  have hin2 : 0 < o1.pool.reserve_b := hin2'
  have hY' : o1.amountOut = amount_out_calc p.reserve_a p.reserve_b
      (effective_in cfg.fee_rate_bps amountX) := hY
  have hZ' : o2.amountOut = amount_out_calc o1.pool.reserve_b
      o1.pool.reserve_a (effective_in cfg.fee_rate_bps o1.amountOut) := hZ
  have hpa : o1.pool.reserve_a = p.reserve_a + amountX := by rw [hp1]; rfl
  have hpb : o1.pool.reserve_b = p.reserve_b - amount_out_calc p.reserve_a
      p.reserve_b (effective_in cfg.fee_rate_bps amountX) := by
    rw [hp1]; rfl
  have hYle : amount_out_calc p.reserve_a p.reserve_b
      (effective_in cfg.fee_rate_bps amountX) ≤ p.reserve_b :=
    amount_out_le _ _ _ hA
  have hZle : o2.amountOut ≤ o1.pool.reserve_a := by
    rw [hZ']; exact amount_out_le _ _ _ hin2
  have hsum : o1.pool.reserve_b + o1.amountOut = p.reserve_b := by
    rw [hpb, hY']; exact Nat.sub_add_cancel hYle
  have hP2 : o1.pool.reserve_b * o1.pool.reserve_a ≤
      (o1.pool.reserve_b + o1.amountOut) *
        (o1.pool.reserve_a - o2.amountOut) := by
    rw [hZ']
    exact amm_product_mono _ _ _ _ hin2 (effective_in_le _ _)
  have hchain : ∀ base : Nat,
      base ≤ (p.reserve_a + amountX) *
        (p.reserve_b - amount_out_calc p.reserve_a p.reserve_b
          (effective_in cfg.fee_rate_bps amountX)) →
      base ≤ p.reserve_b * (o1.pool.reserve_a - o2.amountOut) := by
    intro base hbase
    calc base ≤ (p.reserve_a + amountX) *
          (p.reserve_b - amount_out_calc p.reserve_a p.reserve_b
            (effective_in cfg.fee_rate_bps amountX)) := hbase
      _ = o1.pool.reserve_b * o1.pool.reserve_a := by
          rw [hpa, hpb]; exact Nat.mul_comm _ _
      _ ≤ (o1.pool.reserve_b + o1.amountOut) *
            (o1.pool.reserve_a - o2.amountOut) := hP2
      _ = p.reserve_b * (o1.pool.reserve_a - o2.amountOut) := by rw [hsum]
  constructor
  · have hle1 : p.reserve_a * p.reserve_b ≤
        p.reserve_b * (o1.pool.reserve_a - o2.amountOut) :=
      hchain _ (amm_product_mono _ _ _ _ hA (effective_in_le _ _))
    have hle2 : p.reserve_b * p.reserve_a ≤
        p.reserve_b * (o1.pool.reserve_a - o2.amountOut) := by
      rw [Nat.mul_comm p.reserve_b p.reserve_a]; exact hle1
    have hle3 : p.reserve_a ≤ o1.pool.reserve_a - o2.amountOut :=
      Nat.le_of_mul_le_mul_left hle2 hB
    omega
  · intro hfee hX
    have heffX : effective_in cfg.fee_rate_bps amountX < amountX :=
      effective_in_lt _ _ hfee hX
    have hlt1 : p.reserve_a * p.reserve_b + 1 ≤
        p.reserve_b * (o1.pool.reserve_a - o2.amountOut) :=
      hchain _ (amm_product_strict _ _ _ _ hA hB heffX)
    have hlt2 : p.reserve_b * p.reserve_a <
        p.reserve_b * (o1.pool.reserve_a - o2.amountOut) := by
      rw [Nat.mul_comm p.reserve_b p.reserve_a]; omega
    have hlt3 : p.reserve_a < o1.pool.reserve_a - o2.amountOut :=
      Nat.lt_of_mul_lt_mul_left hlt2
    omega

/-- Witness for C8 (amended): the concrete round trip on the
1,000,000/1,000,000 pool with fee 30 bps — 1000 in, 996 received, 993 back,
which is at most and strictly less than 1000. -/
theorem round_trip_loss_witness :
    swap cfg30 reg0 env0 7 poolBig 1000 900 true =
        .ok { pool := poolBigAfter, amountOut := 996, registry := reg0 } ∧
      swap cfg30 reg0 env0 7 poolBigAfter 996 0 false =
        .ok { pool := poolBigBack, amountOut := 993, registry := reg0 } ∧
      ({ pool := poolBigBack, amountOut := 993,
          registry := reg0 } : SwapOutcome).amountOut ≤ 1000 ∧
      ({ pool := poolBigBack, amountOut := 993,
          registry := reg0 } : SwapOutcome).amountOut < 1000 :=
  ⟨rfl, rfl,
    (round_trip_loss cfg30 reg0 reg0 env0 7 poolBig 1000 900 0
      { pool := poolBigAfter, amountOut := 996, registry := reg0 }
      { pool := poolBigBack, amountOut := 993, registry := reg0 }
      rfl rfl).1,
    (round_trip_loss cfg30 reg0 reg0 env0 7 poolBig 1000 900 0
      { pool := poolBigAfter, amountOut := 996, registry := reg0 }
      { pool := poolBigBack, amountOut := 993, registry := reg0 }
      rfl rfl).2 (by decide) (by decide)⟩

/-- C8 counterexample: with amount `X = 0` on the 1/1 pool and the positive
fee 30 bps, the round trip completes and returns exactly `X = 0`, not
strictly less — the strict-loss part of the claim fails for `X = 0`. -/
theorem round_trip_zero_counterexample :
    0 < cfg30.fee_rate_bps ∧
      swap cfg30 reg0 env0 7 poolTiny 0 0 true =
        .ok { pool := { poolTiny with lifecycle_seq := 1 }, amountOut := 0,
              registry := reg0 } ∧
      swap cfg30 reg0 env0 7 { poolTiny with lifecycle_seq := 1 } 0 0
          false =
        .ok { pool := { poolTiny with lifecycle_seq := 2 }, amountOut := 0,
              registry := reg0 } ∧
      ¬ (({ pool := { poolTiny with lifecycle_seq := 2 }, amountOut := 0,
            registry := reg0 } : SwapOutcome).amountOut < 0) :=
  ⟨by decide, rfl, rfl, by decide⟩

/-! Registry lemmas for the capacity bound. -/

/-- Mapping a function that keeps identities fixed keeps the identity list
fixed. -/
theorem map_hook_identity (l : List ApprovedHook)
    (g : ApprovedHook → ApprovedHook)
    (hg : ∀ e, (g e).hook_identity = e.hook_identity) :
    (l.map g).map (fun e => e.hook_identity) =
      l.map (fun e => e.hook_identity) := by
  induction l with
  | nil => rfl
  | cons e t ih => simp [hg, ih]

/-- A successful `approve_hook` appends the new entry. -/
theorem approve_hook_append (caller h : Identity) (ty : HookType)
    (nm ds : String) (rk : RiskLevel) (r : RegistryConfig)
    (hauth : caller = r.authority)
    (hcap : r.approved_hooks.length < r.max_hooks)
    (hfresh : h ∉ hookIds r) :
    approve_hook caller h ty nm ds rk r = .ok (appendHook r h ty nm ds rk) := by
  unfold approve_hook appendHook
  rw [if_neg (by simp [hauth]), if_neg (by omega),
    if_neg (by simp [hasHook, hfresh])]

/-- `approve_hook` at capacity fails with `RegistryFull`, before any
duplicate check. -/
theorem approve_hook_full (caller h : Identity) (ty : HookType)
    (nm ds : String) (rk : RiskLevel) (r : RegistryConfig)
    (hauth : caller = r.authority)
    (hcap : r.max_hooks ≤ r.approved_hooks.length) :
    approve_hook caller h ty nm ds rk r = .error .registryFull := by
  unfold approve_hook
  rw [if_neg (by simp [hauth]), if_pos hcap]

/-- A successful `revoke_hook` soft-deletes the entry in place. -/
theorem revoke_hook_soft (caller h : Identity) (r : RegistryConfig)
    (hauth : caller = r.authority) (hmem : h ∈ hookIds r) :
    revoke_hook caller h r = .ok (softDelete r h) := by
  unfold revoke_hook softDelete
  rw [if_neg (by simp [hauth]), if_neg (by simp [hasHook, hmem])]

/-- Appending a hook appends its identity. -/
theorem hookIds_appendHook (r : RegistryConfig) (h : Identity)
    (ty : HookType) (nm ds : String) (rk : RiskLevel) :
    hookIds (appendHook r h ty nm ds rk) = hookIds r ++ [h] := by
  simp [appendHook, hookIds]

/-- Soft deletion keeps the identity list unchanged. -/
theorem hookIds_softDelete (r : RegistryConfig) (h : Identity) :
    hookIds (softDelete r h) = hookIds r := by
  unfold softDelete hookIds
  exact map_hook_identity _ _ (fun e => by
    by_cases hc : e.hook_identity = h <;> simp [hc])

/-- Approving a list of fresh, pairwise-distinct identities that fits in
the remaining capacity succeeds, appends exactly those identities, and
grows the entry count by the list length; authority and capacity are
unchanged. -/
theorem approve_list_spec (auth : Identity) (hs : List Identity) :
    ∀ r : RegistryConfig, auth = r.authority → hs.Nodup →
      (∀ h ∈ hs, h ∉ hookIds r) →
      r.approved_hooks.length + hs.length ≤ r.max_hooks →
      ∃ r', approve_list auth r hs = .ok r' ∧
        hookIds r' = hookIds r ++ hs ∧
        r'.approved_hooks.length = r.approved_hooks.length + hs.length ∧
        r'.max_hooks = r.max_hooks ∧ r'.authority = r.authority := by
  induction hs with
  | nil =>
    intro r hauth _ _ _
    exact ⟨r, rfl, by simp, by simp, rfl, rfl⟩
  | cons h t ih =>
    intro r hauth hnd hfresh hcap
    have hcap1 : r.approved_hooks.length < r.max_hooks := by
      simp at hcap; omega
    have happ := approve_hook_append auth h .kyc "hook" "hook" .low r hauth
      hcap1 (hfresh h (by simp))
    have hids1 : hookIds (appendHook r h .kyc "hook" "hook" .low) =
        hookIds r ++ [h] := hookIds_appendHook r h .kyc "hook" "hook" .low
    have hlen1 : (appendHook r h .kyc "hook" "hook" .low).approved_hooks.length =
        r.approved_hooks.length + 1 := by simp [appendHook]
    have hfresh1 : ∀ h' ∈ t,
        h' ∉ hookIds (appendHook r h .kyc "hook" "hook" .low) := by
      intro h' hh'
      rw [hids1]
      intro hmem
      rcases List.mem_append.mp hmem with hm | hm
      · exact hfresh h' (List.mem_cons_of_mem h hh') hm
      · simp at hm
        exact (List.nodup_cons.mp hnd).1 (hm ▸ hh')
    obtain ⟨r', hrun, hids, hlen, hmax, hauth'⟩ :=
      ih (appendHook r h .kyc "hook" "hook" .low) hauth
        (List.nodup_cons.mp hnd).2 hfresh1
        (by
          have hm : (appendHook r h .kyc "hook" "hook" .low).max_hooks =
              r.max_hooks := rfl
          rw [hlen1, hm]
          simp at hcap
          omega)
    refine ⟨r', ?_, ?_, ?_, ?_, ?_⟩
    · simp only [approve_list]
      rw [happ]
      exact hrun
    · rw [hids, hids1]
      simp
    · rw [hlen, hlen1]
      simp
      omega
    · exact hmax
    · exact hauth'

/-- C6: a freshly initialized registry with capacity `m` accepts exactly
`m` authority-issued approvals of distinct hook identities; the next
approval of a fresh identity fails `RegistryFull`; and after revoking any
approved hook (a soft delete) the entry count is still `m`, so a further
approval of a fresh identity still fails `RegistryFull` — soft-deleted
slots count toward capacity, and the entry count never exceeds
`max_hooks`. -/
theorem registry_capacity_bound (auth : Identity) (m : Nat)
    (hs : List Identity) (hnew : Identity)
    (hnd : hs.Nodup) (hlen : hs.length = m) (hnot : hnew ∉ hs) :
    init_registry auth m none = .ok (freshRegistry auth m) ∧
    ∃ r1, approve_list auth (freshRegistry auth m) hs = .ok r1 ∧
      r1.approved_hooks.length = m ∧ r1.max_hooks = m ∧
      (∀ (ty : HookType) (nm ds : String) (rk : RiskLevel),
        approve_hook auth hnew ty nm ds rk r1 = .error .registryFull) ∧
      (∀ h0 ∈ hs, revoke_hook auth h0 r1 = .ok (softDelete r1 h0) ∧
        (softDelete r1 h0).approved_hooks.length = m ∧
        (softDelete r1 h0).max_hooks = m ∧
        (∀ (ty : HookType) (nm ds : String) (rk : RiskLevel),
          approve_hook auth hnew ty nm ds rk (softDelete r1 h0) =
            .error .registryFull)) := by
  refine ⟨rfl, ?_⟩
  obtain ⟨r1, hrun, hids, hlen1, hmax1, hauth1⟩ :=
    approve_list_spec auth hs (freshRegistry auth m) rfl hnd
      (by intro h hh; simp [freshRegistry, hookIds])
      (by simp [freshRegistry]; omega)
  have hids' : hookIds r1 = hs := by
    rw [hids]; simp [freshRegistry, hookIds]
  have hlen1' : r1.approved_hooks.length = m := by
    rw [hlen1]; simp [freshRegistry]; omega
  have hmax1' : r1.max_hooks = m := by rw [hmax1]; rfl
  have hauth1' : auth = r1.authority := by rw [hauth1]; rfl
  refine ⟨r1, hrun, hlen1', hmax1', ?_, ?_⟩
  · intro ty nm ds rk
    exact approve_hook_full auth hnew ty nm ds rk r1 hauth1' (by omega)
  · intro h0 hh0
    have hmem : h0 ∈ hookIds r1 := by rw [hids']; exact hh0
    have hlen2 : (softDelete r1 h0).approved_hooks.length = m := by
      simp [softDelete]; omega
    have hmax2 : (softDelete r1 h0).max_hooks = m := hmax1'
    have hauth2 : auth = (softDelete r1 h0).authority := hauth1'
    refine ⟨revoke_hook_soft auth h0 r1 hauth1' hmem, hlen2, hmax2, ?_⟩
    intro ty nm ds rk
    exact approve_hook_full auth hnew ty nm ds rk (softDelete r1 h0) hauth2
      (by omega)

/-- Witness for C6: the spec's concrete scenario with `max_hooks = 1` —
approving H1 = 101 fills the registry, approving H2 = 102 fails
`RegistryFull`, and after revoking H1 it still fails `RegistryFull`. -/
theorem registry_capacity_bound_witness :
    (([101] : List Identity).Nodup ∧ ([101] : List Identity).length = 1 ∧
      (102 : Identity) ∉ ([101] : List Identity)) ∧
    (init_registry 1 1 none = .ok (freshRegistry 1 1) ∧
      ∃ r1, approve_list 1 (freshRegistry 1 1) [101] = .ok r1 ∧
        r1.approved_hooks.length = 1 ∧ r1.max_hooks = 1 ∧
        (∀ (ty : HookType) (nm ds : String) (rk : RiskLevel),
          approve_hook 1 102 ty nm ds rk r1 = .error .registryFull) ∧
        (∀ h0 ∈ ([101] : List Identity),
          revoke_hook 1 h0 r1 = .ok (softDelete r1 h0) ∧
          (softDelete r1 h0).approved_hooks.length = 1 ∧
          (softDelete r1 h0).max_hooks = 1 ∧
          (∀ (ty : HookType) (nm ds : String) (rk : RiskLevel),
            approve_hook 1 102 ty nm ds rk (softDelete r1 h0) =
              .error .registryFull))) :=
  ⟨⟨by decide, by decide, by decide⟩,
    registry_capacity_bound 1 1 [101] 102 (by decide) (by decide)
      (by decide)⟩

end HookSwap
